import Mathlib

/-!
Verification of the unifi-toolkit reconciliation core against its specification.

The development shallowly embeds the polling reconciliation loop of
src/tools/wifi_stalker/scheduler.py (device presence state machine) and the
event ingestion / ignore-rule engine of src/tools/threat_watch/scheduler.py
and src/tools/threat_watch/routers/ignore_rules.py.  Timestamps are modelled
as integer seconds together with an optional timezone offset; database rows
are lists of records; the poll cycle is a pure state-transition function that
also returns the list of notification intents it would emit.
-/

/-- A Python datetime: wall-clock seconds plus an optional UTC offset in
seconds.  `tz = none` models a timezone-naive value. -/
structure DTime where
  wall : Int
  tz : Option Int
deriving DecidableEq

/-- Absolute (epoch) seconds of a datetime.  A naive value is read as UTC,
mirroring `replace(tzinfo=timezone.utc)` in close_connection_history. -/
def DTime.toAbs (t : DTime) : Int :=
  t.wall - t.tz.getD 0

/-- An aware UTC datetime, as produced by `datetime.now(timezone.utc)`. -/
def DTime.utc (s : Int) : DTime := ⟨s, some 0⟩

/-- Python truthiness of an optional string (`None` and `""` are falsy). -/
def strTruthy : Option String → Bool
  | none => false
  | some s => s != ""

/-! ## Wi-Fi Stalker: device reconciler (src/tools/wifi_stalker/scheduler.py) -/

/-- One snapshot entry for a connected client, as read from the UniFi
client dictionary in process_device (`ap_mac`, `ip`, `rssi`, `is_wired`,
`sw_mac`, `sw_port`). -/
structure WClient where
  apMac : Option String
  ip : Option String
  rssi : Option Int
  isWired : Bool
  swMac : Option String
  swPort : Option Int
deriving DecidableEq

/-- A ConnectionHistory row. -/
structure ConnectionHistory where
  apMac : Option String
  apName : Option String
  connectedAt : DTime
  disconnectedAt : Option DTime
  durationSeconds : Option Int
  signalStrength : Option Int
  isWired : Bool
  swMac : Option String
  swName : Option String
  swPort : Option Int
deriving DecidableEq

/-- The mutable fields of a TrackedDevice touched by the reconciler. -/
structure TrackedDevice where
  macAddress : String
  isConnected : Bool
  isBlocked : Bool
  isWired : Bool
  currentApMac : Option String
  currentApName : Option String
  currentSwitchMac : Option String
  currentSwitchName : Option String
  currentSwitchPort : Option Int
  currentIpAddress : Option String
  currentSignalStrength : Option Int
  lastSeen : Option DTime
deriving DecidableEq

/-- Notification intents emitted by the reconciler (trigger_webhooks kinds). -/
inductive Notif
  | connected
  | disconnected
  | roamed
  | blocked
  | unblocked
deriving DecidableEq

/-- Number of open history rows (null disconnected-at) in a list. -/
def openCount (l : List ConnectionHistory) : Nat :=
  l.countP fun h => h.disconnectedAt.isNone

/-- Close one history row: set disconnected-at to `now` and compute the
duration in whole seconds after normalizing both endpoints (naive read as
UTC).  No clamping is performed, mirroring the source. -/
def closeRow (now : DTime) (h : ConnectionHistory) : ConnectionHistory :=
  { h with
    disconnectedAt := some now
    durationSeconds := some (now.toAbs - h.connectedAt.toAbs) }

/-- close_connection_history: close the open row with the greatest
connected-at (most recently opened first, `ORDER BY connected_at DESC`);
ties between equal timestamps resolve to the later row.  A list with no
open row is returned unchanged. -/
def closeConnectionHistory (now : DTime) : List ConnectionHistory → List ConnectionHistory
  | [] => []
  | h :: t =>
    if h.disconnectedAt.isNone ∧
        ∀ r ∈ t, r.disconnectedAt.isNone → r.connectedAt.toAbs < h.connectedAt.toAbs then
      closeRow now h :: t
    else
      h :: closeConnectionHistory now t

/-- The wired branch of process_device: signal cleared, switch/port change
detection, history close/open, AP fields cleared on change. -/
def processOnlineWired (now : DTime) (nameOf : String → String) (c : WClient)
    (d : TrackedDevice) (hist : List ConnectionHistory) :
    TrackedDevice × List ConnectionHistory × List Notif :=
  let d2 := { d with
    lastSeen := some now
    currentIpAddress := c.ip
    isWired := true
    currentSignalStrength := none }
  match c.swMac with
  | none => (d2, hist, [])
  | some m =>
    if m = "" then (d2, hist, [])
    else
      let swName := nameOf m
      if d.currentSwitchMac ≠ some m ∨ d.currentSwitchPort ≠ c.swPort then
        let hist1 :=
          if d.isConnected && strTruthy d.currentSwitchMac then
            closeConnectionHistory now hist
          else hist
        let hist2 := hist1 ++ [{
          apMac := none, apName := none, connectedAt := now,
          disconnectedAt := none, durationSeconds := none,
          signalStrength := none, isWired := true,
          swMac := some m, swName := some swName, swPort := c.swPort }]
        ({ d2 with
            currentSwitchMac := some m
            currentSwitchName := some swName
            currentSwitchPort := c.swPort
            currentApMac := none
            currentApName := none },
          hist2, [Notif.roamed])
      else (d2, hist, [])

/-- The wireless branch of process_device: signal updated, switch fields
cleared unconditionally, AP change detection, history close/open. -/
def processOnlineWireless (now : DTime) (nameOf : String → String) (c : WClient)
    (d : TrackedDevice) (hist : List ConnectionHistory) :
    TrackedDevice × List ConnectionHistory × List Notif :=
  let d2 := { d with
    lastSeen := some now
    currentIpAddress := c.ip
    isWired := false
    currentSignalStrength := c.rssi
    currentSwitchMac := none
    currentSwitchName := none
    currentSwitchPort := none }
  match c.apMac with
  | none => (d2, hist, [])
  | some a =>
    if a = "" then (d2, hist, [])
    else
      let apName := nameOf a
      if d.currentApMac ≠ some a then
        let hist1 :=
          if d.isConnected && strTruthy d.currentApMac then
            closeConnectionHistory now hist
          else hist
        let hist2 := hist1 ++ [{
          apMac := some a, apName := some apName, connectedAt := now,
          disconnectedAt := none, durationSeconds := none,
          signalStrength := c.rssi, isWired := false,
          swMac := none, swName := none, swPort := none }]
        ({ d2 with currentApMac := some a, currentApName := some apName },
          hist2, [Notif.roamed])
      else (d2, hist, [])

/-- Online portion of process_device: dispatch on the snapshot medium, then
mark the device connected, emitting `connected` only on a transition. -/
def processOnline (now : DTime) (nameOf : String → String) (c : WClient)
    (d : TrackedDevice) (hist : List ConnectionHistory) :
    TrackedDevice × List ConnectionHistory × List Notif :=
  let r :=
    if c.isWired then processOnlineWired now nameOf c d hist
    else processOnlineWireless now nameOf c d hist
  if d.isConnected then
    ({ r.1 with isConnected := true }, r.2.1, r.2.2)
  else
    ({ r.1 with isConnected := true }, r.2.1, r.2.2 ++ [Notif.connected])

/-- Result of processing one device for one cycle. -/
structure StepResult where
  device : TrackedDevice
  hist : List ConnectionHistory
  notifs : List Notif
deriving DecidableEq

/-- The trailing block-status check of process_device.  `blockRes` is the
outcome of is_client_blocked; an exception (`Except.error`) is caught and
skipped, leaving the stored flag and notifications untouched. -/
def blockCheck (blockRes : Except Unit Bool) (d : TrackedDevice)
    (hist : List ConnectionHistory) (notifs : List Notif) : StepResult :=
  match blockRes with
  | Except.error _ => ⟨d, hist, notifs⟩
  | Except.ok b =>
    if d.isBlocked ≠ b then
      ⟨{ d with isBlocked := b }, hist,
        notifs ++ [if b then Notif.blocked else Notif.unblocked]⟩
    else ⟨d, hist, notifs⟩

/-- process_device for one tracked device: online path when the device is in
the snapshot, otherwise close the open row and mark disconnected on a
transition; the block-status check always runs last. -/
def processDevice (now : DTime) (nameOf : String → String) (client : Option WClient)
    (blockRes : Except Unit Bool) (d : TrackedDevice)
    (hist : List ConnectionHistory) : StepResult :=
  match client with
  | some c =>
    let r := processOnline now nameOf c d hist
    blockCheck blockRes r.1 r.2.1 r.2.2
  | none =>
    if d.isConnected then
      blockCheck blockRes { d with isConnected := false }
        (closeConnectionHistory now hist) [Notif.disconnected]
    else
      blockCheck blockRes d hist []

/-- Per-cycle input for one device: the cycle clock, the device's snapshot
entry (none when absent) and the block-status outcome. -/
structure CycleInput where
  now : DTime
  client : Option WClient
  blockRes : Except Unit Bool

/-- Run process_device over a sequence of poll cycles for one device. -/
def runTrace (nameOf : String → String) :
    TrackedDevice → List ConnectionHistory → List CycleInput →
    TrackedDevice × List ConnectionHistory
  | d, hist, [] => (d, hist)
  | d, hist, i :: rest =>
    let r := processDevice i.now nameOf i.client i.blockRes d hist
    runTrace nameOf r.device r.hist rest

/-- Modelled from the spec: the initial state of a freshly added tracked
device.  The router (src/tools/wifi_stalker/routers/devices.py) creates it
with is_connected = false; the column defaults live in the tool's database
module, which is not part of the sources, so the remaining fields follow §3
of the spec (no location, no history, not blocked). -/
def initialDevice (mac : String) : TrackedDevice :=
  { macAddress := mac
    isConnected := false
    isBlocked := false
    isWired := false
    currentApMac := none
    currentApName := none
    currentSwitchMac := none
    currentSwitchName := none
    currentSwitchPort := none
    currentIpAddress := none
    currentSignalStrength := none
    lastSeen := none }

/-! ## Threat Watch: canonicalization (src/tools/threat_watch/scheduler.py) -/

/-- The nested `ips` object of a v2 traffic-flow record. -/
structure IpsData where
  signature : Option String
  signatureId : Option Int
  categoryName : Option String
  sessionId : Option String
  advancedInformation : Option String
deriving DecidableEq

/-- The nested `source` / `destination` objects of a v2 record. -/
structure EndpointData where
  ip : Option String
  port : Option Int
  mac : Option String
deriving DecidableEq

/-- A raw upstream event dictionary, holding the keys read by the two parse
functions.  A v2-shaped record is recognized by the presence of the nested
`ips` object; the remaining fields cover both the v2 keys (`time`, `risk`,
`action`, `id`, `source`, `destination`, `protocol`, `service`) and the
legacy flat keys.  The geolocation keys, which are passed through untouched
and are irrelevant to every claim, are omitted. -/
structure RawEvent where
  ips : Option IpsData
  time : Option Int
  risk : Option String
  action : Option String
  vid : Option String
  source : Option EndpointData
  destination : Option EndpointData
  protocol : Option String
  service : Option String
  lid : Option String
  uniqueAlertid : Option String
  timestamp : Option Int
  flowId : Option String
  innerAlertSignature : Option String
  msg : Option String
  innerAlertSignatureId : Option Int
  innerAlertSeverity : Option Int
  innerAlertCategory : Option String
  catname : Option String
  innerAlertAction : Option String
  srcIp : Option String
  srcPort : Option Int
  srcMac : Option String
  destIp : Option String
  destPort : Option Int
  dstMac : Option String
  proto : Option String
  appProto : Option String
  inIface : Option String
  siteId : Option String
  archived : Option Bool
deriving DecidableEq

/-- Python `a or b` on a string already defaulted from a dict lookup:
`None` and the empty string fall through to the alternative. -/
def pyOrStr (a : Option String) (b : String) : String :=
  match a with
  | some s => if s = "" then b else s
  | none => b

/-- Python `a or b` where both sides are optional strings. -/
def pyOrOpt (a b : Option String) : Option String :=
  match a with
  | some s => if s = "" then b else some s
  | none => b

/-- Python `str(event.get(key, ''))` for an integer-valued key. -/
def intKeyStr (o : Option Int) : String :=
  match o with
  | some t => toString t
  | none => ""

/-- `datetime.fromtimestamp(ms / 1000, tz=timezone.utc)`, to second
precision. -/
def DTime.fromMs (ms : Int) : DTime := ⟨ms / 1000, some 0⟩

/-- The canonical event record produced by the parse functions, with the
fields of the ThreatEvent model that any claim touches (geolocation fields
omitted, they are pure pass-through). -/
structure CanonEvent where
  unifiEventId : String
  flowId : Option String
  timestamp : DTime
  signature : Option String
  signatureId : Option Int
  severity : Option Int
  category : Option String
  action : Option String
  message : Option String
  srcIp : Option String
  srcPort : Option Int
  srcMac : Option String
  destIp : Option String
  destPort : Option Int
  destMac : Option String
  protocol : Option String
  appProtocol : Option String
  interface : Option String
  siteId : Option String
  archived : Bool
deriving DecidableEq

/-- _parse_v2_traffic_flow: canonicalize a v2 traffic-flow record.  `now`
models `datetime.now(timezone.utc)`, the fallback when the record carries no
usable time. -/
def parseV2TrafficFlow (now : DTime) (event : RawEvent) : CanonEvent :=
  let ts := match event.time with
    | some ms => DTime.fromMs ms
    | none => now
  let ipsD := event.ips.getD ⟨none, none, none, none, none⟩
  let src := event.source.getD ⟨none, none, none⟩
  let dst := event.destination.getD ⟨none, none, none⟩
  let risk := event.risk.getD "low"
  let severity : Int :=
    if risk = "high" then 1 else if risk = "medium" then 2
    else if risk = "low" then 3 else 3
  let action0 := event.action.getD "alert"
  let action1 :=
    if action0 = "blocked" then "block"
    else if action0 = "allowed" then "alert"
    else action0
  let sig := ipsD.signature.getD ""
  let adv := ipsD.advancedInformation.getD ""
  { unifiEventId := pyOrStr event.vid (intKeyStr event.time)
    flowId := ipsD.sessionId
    timestamp := ts
    signature := some sig
    signatureId := ipsD.signatureId
    severity := some severity
    category := ipsD.categoryName
    action := some action1
    message := some (if adv = "" then sig else adv)
    srcIp := src.ip
    srcPort := src.port
    srcMac := src.mac
    destIp := dst.ip
    destPort := dst.port
    destMac := dst.mac
    protocol := event.protocol
    appProtocol := event.service
    interface := none
    siteId := none
    archived := false }

/-- _parse_legacy_ips_event: canonicalize a legacy stat/ips/event record. -/
def parseLegacyIpsEvent (now : DTime) (event : RawEvent) : CanonEvent :=
  let ts := match event.timestamp with
    | some ms => DTime.fromMs ms
    | none => match event.time with
      | some ms => DTime.fromMs ms
      | none => now
  { unifiEventId :=
      pyOrStr event.lid (pyOrStr event.uniqueAlertid (intKeyStr event.timestamp))
    flowId := event.flowId
    timestamp := ts
    signature := pyOrOpt event.innerAlertSignature event.msg
    signatureId := event.innerAlertSignatureId
    severity := event.innerAlertSeverity
    category := pyOrOpt event.innerAlertCategory event.catname
    action := event.innerAlertAction
    message := event.msg
    srcIp := event.srcIp
    srcPort := event.srcPort
    srcMac := event.srcMac
    destIp := event.destIp
    destPort := event.destPort
    destMac := event.dstMac
    protocol := event.proto
    appProtocol := event.appProto
    interface := event.inIface
    siteId := event.siteId
    archived := event.archived.getD false }

/-- parse_unifi_event: dispatch on the presence of the nested `ips` object. -/
def parseUnifiEvent (now : DTime) (event : RawEvent) : CanonEvent :=
  if event.ips.isSome then parseV2TrafficFlow now event
  else parseLegacyIpsEvent now event

/-! ## Threat Watch: ignore rules and ingestion -/

/-- A ThreatIgnoreRule row. -/
structure ThreatIgnoreRule where
  id : Int
  ipAddress : String
  ignoreHigh : Bool
  ignoreMedium : Bool
  ignoreLow : Bool
  matchSource : Bool
  matchDestination : Bool
  enabled : Bool
  eventsIgnored : Int
  lastMatched : Option DTime
deriving DecidableEq

/-- `event_data.get('severity') or 3`: a missing (or zero) severity is read
as 3 (low) by the ingestion-time check. -/
def effSeverity (s : Option Int) : Int :=
  match s with
  | some v => if v = 0 then 3 else v
  | none => 3

/-- The IP-direction test of check_ignore_rules. -/
def ipRuleMatch (rule : ThreatIgnoreRule) (srcIp destIp : Option String) : Bool :=
  (rule.matchSource && srcIp == some rule.ipAddress) ||
  (rule.matchDestination && destIp == some rule.ipAddress)

/-- The severity test of check_ignore_rules, on the effective severity. -/
def sevRuleMatch (rule : ThreatIgnoreRule) (severity : Int) : Bool :=
  (severity == 1 && rule.ignoreHigh) ||
  (severity == 2 && rule.ignoreMedium) ||
  (severity == 3 && rule.ignoreLow)

/-- A full ingestion-time hit: the rule is enabled (the scheduler only
iterates enabled rules) and both tests pass. -/
def ruleHit (e : CanonEvent) (rule : ThreatIgnoreRule) : Bool :=
  rule.enabled && ipRuleMatch rule e.srcIp e.destIp &&
    sevRuleMatch rule (effSeverity e.severity)

/-- Stats update for the winning rule: ignored-count += 1, last-matched = now. -/
def bumpRule (now : DTime) (r : ThreatIgnoreRule) : ThreatIgnoreRule :=
  { r with eventsIgnored := r.eventsIgnored + 1, lastMatched := some now }

/-- check_ignore_rules: first enabled rule passing both tests wins; its
stats are updated and its id returned.  Returns the (possibly updated) rule
list alongside the decision. -/
def checkIgnoreRules (now : DTime) (e : CanonEvent) :
    List ThreatIgnoreRule → Bool × Option Int × List ThreatIgnoreRule
  | [] => (false, none, [])
  | r :: rs =>
    if ruleHit e r then (true, some r.id, bumpRule now r :: rs)
    else
      let p := checkIgnoreRules now e rs
      (p.1, p.2.1, r :: p.2.2)

/-- A persisted ThreatEvent row: the canonical record plus the ignore
attribution columns. -/
structure StoredEvent where
  ev : CanonEvent
  ignored : Bool
  ignoredByRuleId : Option Int
deriving DecidableEq

/-- The mutable store the ingestor works against. -/
structure IngestState where
  events : List StoredEvent
  rules : List ThreatIgnoreRule
deriving DecidableEq

/-- Process one raw record of a batch (the loop body of
refresh_threat_events): parse it, skip it as a duplicate when its canonical
upstream id is already present, otherwise run the ignore check and append
the new row.  Modelled from the spec: rows added earlier in the same batch
are visible to the duplicate check (§7(c): a duplicate upstream event id
appearing twice in one fetched batch has its second occurrence treated as a
duplicate); the session layer that provides this visibility is not part of
the sources. -/
def ingestOne (now : DTime) (st : IngestState) (raw : RawEvent) : IngestState :=
  let ed := parseUnifiEvent now raw
  if st.events.any fun s => s.ev.unifiEventId == ed.unifiEventId then st
  else
    let p := checkIgnoreRules now ed st.rules
    { events := st.events ++ [⟨ed, p.1, p.2.1⟩], rules := p.2.2 }

/-- Ingest a whole fetched batch, left to right. -/
def ingestBatch (now : DTime) (st : IngestState) (batch : List RawEvent) : IngestState :=
  batch.foldl (ingestOne now) st

/-- Canonical upstream ids currently present in the store. -/
def storeIds (st : IngestState) : List String :=
  st.events.map fun s => s.ev.unifiEventId

/-! ## Threat Watch: retroactive rule application
(src/tools/threat_watch/routers/ignore_rules.py) -/

/-- remove_ignore_rule_from_events: unmark every event attributed to the
rule id (ignored = false, ignoring-rule = null). -/
def removeIgnoreRuleFromEvents (ruleId : Int) (evs : List StoredEvent) : List StoredEvent :=
  evs.map fun s =>
    if s.ignoredByRuleId == some ruleId then
      { s with ignored := false, ignoredByRuleId := none }
    else s

/-- The severity values enabled on a rule, as built by
apply_ignore_rule_to_existing_events. -/
def sevValues (r : ThreatIgnoreRule) : List Int :=
  (if r.ignoreHigh then [1] else []) ++
  (if r.ignoreMedium then [2] else []) ++
  (if r.ignoreLow then [3] else [])

/-- The WHERE clause of the retroactive update: IP-direction match and
stored severity in the rule's enabled set (a null severity never matches
an SQL IN). -/
def retroMatch (r : ThreatIgnoreRule) (s : StoredEvent) : Bool :=
  ((r.matchSource && s.ev.srcIp == some r.ipAddress) ||
   (r.matchDestination && s.ev.destIp == some r.ipAddress)) &&
  (match s.ev.severity with
   | some v => (sevValues r).contains v
   | none => false)

/-- apply_ignore_rule_to_existing_events: early-out when the rule is
disabled or has no direction or no severity flags; otherwise mark every
matching not-yet-ignored event and update the rule's stats by the affected
row count. -/
def applyIgnoreRuleToExistingEvents (now : DTime) (r : ThreatIgnoreRule)
    (evs : List StoredEvent) : ThreatIgnoreRule × List StoredEvent :=
  if !r.enabled then (r, evs)
  else if !r.matchSource && !r.matchDestination then (r, evs)
  else if sevValues r = [] then (r, evs)
  else
    let evs2 := evs.map fun s =>
      if retroMatch r s && !s.ignored then
        { s with ignored := true, ignoredByRuleId := some r.id }
      else s
    let cnt := (evs.filter fun s => retroMatch r s && !s.ignored).length
    if 0 < cnt then
      ({ r with eventsIgnored := r.eventsIgnored + cnt, lastMatched := some now }, evs2)
    else (r, evs2)

/-- The store effect of update_ignore_rule after its field edits and
validation: unmark everything attributed to the rule, reset its counter,
then re-apply the new criteria (apply itself no-ops when disabled).
`r` carries the rule's new criteria. -/
def updateIgnoreRule (now : DTime) (r : ThreatIgnoreRule) (evs : List StoredEvent) :
    ThreatIgnoreRule × List StoredEvent :=
  let evs1 := removeIgnoreRuleFromEvents r.id evs
  let r1 := { r with eventsIgnored := 0 }
  applyIgnoreRuleToExistingEvents now r1 evs1

/-- The set the spec calls "applying R's new definition from scratch to all
persisted events": remove R's previous effect, then select the events R's
criteria match among those not ignored (by another rule).  Encoded as the
per-row selection flags. -/
def specRecomputedFromScratch (r : ThreatIgnoreRule) (evs : List StoredEvent) : List Bool :=
  (removeIgnoreRuleFromEvents r.id evs).map fun s =>
    r.enabled && retroMatch r s && !s.ignored

/-! ## Batch and cycle wrappers -/

/-- Everything one device contributes to one poll cycle: its stored state,
its history, its snapshot entry and its block-status outcome. -/
structure DeviceCycleData where
  device : TrackedDevice
  hist : List ConnectionHistory
  client : Option WClient
  blockRes : Except Unit Bool

/-- The per-device loop of refresh_tracked_devices: every tracked device is
processed against the same frozen snapshot. -/
def processDeviceBatch (now : DTime) (nameOf : String → String)
    (items : List DeviceCycleData) : List StepResult :=
  items.map fun it => processDevice now nameOf it.client it.blockRes it.device it.hist

/-- The persisted Wi-Fi Stalker state: each tracked device with its history
rows. -/
structure WifiStore where
  devices : List (TrackedDevice × List ConnectionHistory)
deriving DecidableEq

/-- refresh_tracked_devices, one poll cycle: nothing to do without tracked
devices, abort with no store mutation when the controller connection fails
or the client fetch raises (the commit only happens at the end of a
successful cycle), otherwise reconcile every device against the frozen
snapshot and commit. -/
def refreshTrackedDevices (now : DTime) (nameOf : String → String)
    (store : WifiStore) (connectOk : Bool)
    (fetch : Except Unit (String → Option WClient))
    (blockOf : String → Except Unit Bool) : WifiStore :=
  if store.devices.isEmpty then store
  else if !connectOk then store
  else
    match fetch with
    | Except.error _ => store
    | Except.ok snap =>
      ⟨store.devices.map fun p =>
        let r := processDevice now nameOf (snap p.1.macAddress.toLower)
          (blockOf p.1.macAddress.toLower) p.1 p.2
        (r.device, r.hist)⟩

/-- The severity test exactly as the claim words it, on the event's stored
severity value (no null-to-low defaulting). -/
def specSevTest (rule : ThreatIgnoreRule) (sev : Option Int) : Bool :=
  (sev == some 1 && rule.ignoreHigh) ||
  (sev == some 2 && rule.ignoreMedium) ||
  (sev == some 3 && rule.ignoreLow)

/-- The inductive invariant behind the open-row bound, for a device whose
snapshot entries all report medium `b` (true = wired): at most one open
row, none while disconnected, and none while the stored location identifier
of that medium is empty. -/
def histInvariant (b : Bool) (d : TrackedDevice) (hist : List ConnectionHistory) : Prop :=
  openCount hist ≤ 1 ∧
  (d.isConnected = false → openCount hist = 0) ∧
  ((if b then strTruthy d.currentSwitchMac else strTruthy d.currentApMac) = false →
    openCount hist = 0)

/-- A raw event with every key absent, a base for concrete test records. -/
def emptyRaw : RawEvent :=
  ⟨none, none, none, none, none, none, none, none, none, none, none, none,
   none, none, none, none, none, none, none, none, none, none, none, none,
   none, none, none, none, none, none, none⟩

/-- A canonical event with empty fields, a base for concrete test events. -/
def emptyCanon : CanonEvent :=
  ⟨"", none, DTime.utc 0, none, none, none, none, none, none, none, none,
   none, none, none, none, none, none, none, none, false⟩

/-- A disabled, flagless base ignore rule for concrete test rules. -/
def baseRule : ThreatIgnoreRule :=
  ⟨1, "10.0.0.5", false, false, false, false, false, false, 0, none⟩

/-! ## History counting lemmas -/

theorem openCount_append (l1 l2 : List ConnectionHistory) :
    openCount (l1 ++ l2) = openCount l1 + openCount l2 := by
  simp [openCount]

theorem closeRow_closed (now : DTime) (h : ConnectionHistory) :
    (closeRow now h).disconnectedAt.isNone = false := rfl

theorem openCount_closeConnectionHistory (now : DTime) (l : List ConnectionHistory)
    (hl : openCount l ≤ 1) : openCount (closeConnectionHistory now l) = 0 := by
  induction l with
  | nil => rfl
  | cons a t ih =>
    unfold closeConnectionHistory
    split
    · rename_i hcond
      have ha := hcond.1
      have h1 : openCount (a :: t) = openCount t + 1 := by
        simp [openCount, List.countP_cons, ha]
      have h2 : openCount (closeRow now a :: t) = openCount t := by
        simp [openCount, List.countP_cons, closeRow_closed]
      rw [h1] at hl
      rw [h2]
      omega
    · rename_i hcond
      by_cases ha : a.disconnectedAt.isNone
      · exfalso
        push_neg at hcond
        obtain ⟨r, hr, hropen, _⟩ := hcond ha
        have hpos : 0 < openCount t := by
          simp only [openCount]
          exact List.countP_pos_iff.mpr ⟨r, hr, by simpa using hropen⟩
        simp only [openCount, List.countP_cons, ha, if_true] at hl
        simp only [openCount] at hpos
        omega
      · simp only [openCount, List.countP_cons, ha, if_false] at hl ⊢
        exact ih hl

theorem closeConnectionHistory_of_none (now : DTime) (l : List ConnectionHistory)
    (hl : openCount l = 0) : closeConnectionHistory now l = l := by
  induction l with
  | nil => rfl
  | cons a t ih =>
    have hall := List.countP_eq_zero.mp hl
    have ha : ¬a.disconnectedAt.isNone = true := hall a (List.mem_cons_self a t)
    have ht : openCount t = 0 := by
      apply List.countP_eq_zero.mpr
      intro x hx
      exact hall x (List.mem_cons_of_mem a hx)
    unfold closeConnectionHistory
    split
    · rename_i hcond
      exact absurd hcond.1 ha
    · rw [ih ht]

/-! ## C4: duration at close time -/

/-- C4: every row of the closed list is either an untouched original row or
the close of an original open row, and in the latter case its duration is
exactly the absolute-time difference `now − connected-at`, with naive
endpoints read as UTC.  Together with the counterexample this corrects the
claim: the difference is stored as-is, with no clamping to ≥ 0. -/
theorem c4_theorem (now : DTime) (l : List ConnectionHistory) :
    ∀ h2 ∈ closeConnectionHistory now l,
      h2 ∈ l ∨ ∃ h ∈ l, h.disconnectedAt = none ∧ h2 = closeRow now h ∧
        h2.durationSeconds = some (now.toAbs - h.connectedAt.toAbs) := by
  induction l with
  | nil => simp [closeConnectionHistory]
  | cons a t ih =>
    unfold closeConnectionHistory
    split
    · rename_i hcond
      intro h2 hh2
      rcases List.mem_cons.mp hh2 with heq | ht
      · right
        refine ⟨a, List.mem_cons_self a t, ?_, heq, ?_⟩
        · exact Option.isNone_iff_eq_none.mp hcond.1
        · rw [heq]; rfl
      · left
        exact List.mem_cons_of_mem a ht
    · intro h2 hh2
      rcases List.mem_cons.mp hh2 with heq | ht
      · left
        rw [heq]
        exact List.mem_cons_self a t
      · rcases ih h2 ht with hmem | ⟨h, hm, hopen, heq, hdur⟩
        · left
          exact List.mem_cons_of_mem a hmem
        · right
          exact ⟨h, List.mem_cons_of_mem a hm, hopen, heq, hdur⟩

/-- Witness for C4's theorem: closing a store with one open naive row at
wall-clock 100 at UTC time 160 yields that row closed with duration 60. -/
theorem c4_witness :
    closeRow (DTime.utc 160)
        (⟨none, none, ⟨100, none⟩, none, none, none, false, none, none, none⟩ :
          ConnectionHistory) ∈
      closeConnectionHistory (DTime.utc 160)
        [⟨none, none, ⟨100, none⟩, none, none, none, false, none, none, none⟩] ∧
    (closeRow (DTime.utc 160)
        (⟨none, none, ⟨100, none⟩, none, none, none, false, none, none, none⟩ :
          ConnectionHistory) ∈
        [(⟨none, none, ⟨100, none⟩, none, none, none, false, none, none, none⟩ :
          ConnectionHistory)] ∨
      ∃ h ∈ [(⟨none, none, ⟨100, none⟩, none, none, none, false, none, none, none⟩ :
          ConnectionHistory)], h.disconnectedAt = none ∧
        closeRow (DTime.utc 160)
            (⟨none, none, ⟨100, none⟩, none, none, none, false, none, none, none⟩ :
              ConnectionHistory) = closeRow (DTime.utc 160) h ∧
        (closeRow (DTime.utc 160)
            (⟨none, none, ⟨100, none⟩, none, none, none, false, none, none, none⟩ :
              ConnectionHistory)).durationSeconds =
          some ((DTime.utc 160).toAbs - h.connectedAt.toAbs)) :=
  ⟨by decide,
   c4_theorem (DTime.utc 160)
     [⟨none, none, ⟨100, none⟩, none, none, none, false, none, none, none⟩]
     (closeRow (DTime.utc 160)
       ⟨none, none, ⟨100, none⟩, none, none, none, false, none, none, none⟩)
     (by decide)⟩

/-- C4 counterexample: closing an open row whose stored connected-at (naive,
read as UTC) lies after the close instant stores a negative duration; the
code performs no clamping to ≥ 0, contradicting the claim that every closed
row has duration_seconds ≥ 0. -/
theorem c4_counterexample :
    (closeConnectionHistory (DTime.utc 40)
        [⟨none, none, ⟨100, none⟩, none, none, none, false, none, none, none⟩]).map
      (fun h => h.durationSeconds) = [some (-60)] ∧ ((-60 : Int) < 0) := by
  decide

/-! ## Block-check projection lemmas -/

theorem blockCheck_hist (br : Except Unit Bool) (d : TrackedDevice)
    (hist : List ConnectionHistory) (n : List Notif) :
    (blockCheck br d hist n).hist = hist := by
  cases br with
  | error e => rfl
  | ok b =>
    simp only [blockCheck]
    split <;> rfl

theorem blockCheck_isConnected (br : Except Unit Bool) (d : TrackedDevice)
    (hist : List ConnectionHistory) (n : List Notif) :
    (blockCheck br d hist n).device.isConnected = d.isConnected := by
  cases br with
  | error e => rfl
  | ok b =>
    simp only [blockCheck]
    split <;> rfl

theorem blockCheck_apMac (br : Except Unit Bool) (d : TrackedDevice)
    (hist : List ConnectionHistory) (n : List Notif) :
    (blockCheck br d hist n).device.currentApMac = d.currentApMac := by
  cases br with
  | error e => rfl
  | ok b =>
    simp only [blockCheck]
    split <;> rfl

theorem blockCheck_swMac (br : Except Unit Bool) (d : TrackedDevice)
    (hist : List ConnectionHistory) (n : List Notif) :
    (blockCheck br d hist n).device.currentSwitchMac = d.currentSwitchMac := by
  cases br with
  | error e => rfl
  | ok b =>
    simp only [blockCheck]
    split <;> rfl

/-! ## Open-row invariant preservation -/

theorem processOnlineWired_count (now : DTime) (nameOf : String → String) (c : WClient)
    (d : TrackedDevice) (hist : List ConnectionHistory)
    (h1 : openCount hist ≤ 1)
    (h2 : d.isConnected = false → openCount hist = 0)
    (h3 : strTruthy d.currentSwitchMac = false → openCount hist = 0) :
    openCount (processOnlineWired now nameOf c d hist).2.1 ≤ 1 ∧
    (strTruthy (processOnlineWired now nameOf c d hist).1.currentSwitchMac = false →
      openCount (processOnlineWired now nameOf c d hist).2.1 = 0) := by
  simp only [processOnlineWired]
  cases hsw : c.swMac with
  | none => exact ⟨h1, h3⟩
  | some m =>
    dsimp only
    by_cases hm : m = ""
    · rw [if_pos hm]
      exact ⟨h1, h3⟩
    · rw [if_neg hm]
      by_cases hchg : d.currentSwitchMac ≠ some m ∨ d.currentSwitchPort ≠ c.swPort
      · rw [if_pos hchg]
        by_cases hcl : (d.isConnected && strTruthy d.currentSwitchMac) = true
        · rw [if_pos hcl]
          constructor
          · rw [openCount_append, openCount_closeConnectionHistory now hist h1]
            simp [openCount]
          · intro hfalse
            exfalso
            simp [strTruthy] at hfalse
            exact hm hfalse
        · rw [if_neg hcl]
          have h0 : openCount hist = 0 := by
            have hcl2 : (d.isConnected && strTruthy d.currentSwitchMac) = false := by
              simpa using hcl
            rcases Bool.and_eq_false_iff.mp hcl2 with hx | hx
            · exact h2 hx
            · exact h3 hx
          constructor
          · rw [openCount_append, h0]
            simp [openCount]
          · intro hfalse
            exfalso
            simp [strTruthy] at hfalse
            exact hm hfalse
      · rw [if_neg hchg]
        exact ⟨h1, h3⟩

theorem processOnlineWireless_count (now : DTime) (nameOf : String → String) (c : WClient)
    (d : TrackedDevice) (hist : List ConnectionHistory)
    (h1 : openCount hist ≤ 1)
    (h2 : d.isConnected = false → openCount hist = 0)
    (h3 : strTruthy d.currentApMac = false → openCount hist = 0) :
    openCount (processOnlineWireless now nameOf c d hist).2.1 ≤ 1 ∧
    (strTruthy (processOnlineWireless now nameOf c d hist).1.currentApMac = false →
      openCount (processOnlineWireless now nameOf c d hist).2.1 = 0) := by
  simp only [processOnlineWireless]
  cases hap : c.apMac with
  | none => exact ⟨h1, h3⟩
  | some a =>
    dsimp only
    by_cases ha : a = ""
    · rw [if_pos ha]
      exact ⟨h1, h3⟩
    · rw [if_neg ha]
      by_cases hchg : d.currentApMac ≠ some a
      · rw [if_pos hchg]
        by_cases hcl : (d.isConnected && strTruthy d.currentApMac) = true
        · rw [if_pos hcl]
          constructor
          · rw [openCount_append, openCount_closeConnectionHistory now hist h1]
            simp [openCount]
          · intro hfalse
            exfalso
            simp [strTruthy] at hfalse
            exact ha hfalse
        · rw [if_neg hcl]
          have h0 : openCount hist = 0 := by
            have hcl2 : (d.isConnected && strTruthy d.currentApMac) = false := by
              simpa using hcl
            rcases Bool.and_eq_false_iff.mp hcl2 with hx | hx
            · exact h2 hx
            · exact h3 hx
          constructor
          · rw [openCount_append, h0]
            simp [openCount]
          · intro hfalse
            exfalso
            simp [strTruthy] at hfalse
            exact ha hfalse
      · rw [if_neg hchg]
        exact ⟨h1, h3⟩

theorem processDevice_inv (b : Bool) (now : DTime) (nameOf : String → String)
    (client : Option WClient) (br : Except Unit Bool) (d : TrackedDevice)
    (hist : List ConnectionHistory)
    (hc : ∀ c, client = some c → c.isWired = b)
    (h : histInvariant b d hist) :
    histInvariant b (processDevice now nameOf client br d hist).device
      (processDevice now nameOf client br d hist).hist := by
  obtain ⟨h1, h2, h3⟩ := h
  cases client with
  | none =>
    simp only [processDevice]
    by_cases hcon : d.isConnected = true
    · rw [if_pos hcon]
      have hz : openCount (closeConnectionHistory now hist) = 0 :=
        openCount_closeConnectionHistory now hist h1
      refine ⟨?_, ?_, ?_⟩ <;> rw [blockCheck_hist] <;> try rw [hz]
      · omega
      · intro _; rfl
      · intro _; rfl
    · rw [if_neg hcon]
      have hz : openCount hist = 0 := h2 (Bool.of_not_eq_true hcon)
      refine ⟨?_, ?_, ?_⟩ <;> rw [blockCheck_hist] <;> try rw [hz]
      · omega
      · intro _; rfl
      · intro _; rfl
  | some c =>
    have hcw := hc c rfl
    simp only [processDevice, processOnline]
    cases b with
    | true =>
      rw [hcw, if_pos rfl]
      have hw := processOnlineWired_count now nameOf c d hist h1 h2 (by simpa using h3)
      by_cases hcon : d.isConnected = true
      · rw [if_pos hcon]
        refine ⟨?_, ?_, ?_⟩
        · rw [blockCheck_hist]; exact hw.1
        · rw [blockCheck_isConnected]; intro hx; simp at hx
        · rw [blockCheck_hist, blockCheck_swMac]
          simpa using hw.2
      · rw [if_neg hcon]
        refine ⟨?_, ?_, ?_⟩
        · rw [blockCheck_hist]; exact hw.1
        · rw [blockCheck_isConnected]; intro hx; simp at hx
        · rw [blockCheck_hist, blockCheck_swMac]
          simpa using hw.2
    | false =>
      rw [hcw]
      simp only [Bool.false_eq_true, if_false]
      have hw := processOnlineWireless_count now nameOf c d hist h1 h2 (by simpa using h3)
      by_cases hcon : d.isConnected = true
      · rw [if_pos hcon]
        refine ⟨?_, ?_, ?_⟩
        · rw [blockCheck_hist]; exact hw.1
        · rw [blockCheck_isConnected]; intro hx; simp at hx
        · rw [blockCheck_hist, blockCheck_apMac]
          simpa using hw.2
      · rw [if_neg hcon]
        refine ⟨?_, ?_, ?_⟩
        · rw [blockCheck_hist]; exact hw.1
        · rw [blockCheck_isConnected]; intro hx; simp at hx
        · rw [blockCheck_hist, blockCheck_apMac]
          simpa using hw.2

theorem runTrace_inv (b : Bool) (nameOf : String → String) :
    ∀ (inputs : List CycleInput) (d : TrackedDevice) (hist : List ConnectionHistory),
      (∀ i ∈ inputs, ∀ c, i.client = some c → c.isWired = b) →
      histInvariant b d hist →
      histInvariant b (runTrace nameOf d hist inputs).1 (runTrace nameOf d hist inputs).2 := by
  intro inputs
  induction inputs with
  | nil => intro d hist _ h; exact h
  | cons i rest ih =>
    intro d hist hm h
    simp only [runTrace]
    exact ih _ _ (fun j hj => hm j (List.mem_cons_of_mem i hj))
      (processDevice_inv b i.now nameOf i.client i.blockRes d hist
        (fun c hc => hm i (List.mem_cons_self i rest) c hc) h)

/-! ## C1: open-history-row bound -/

/-- C1 (amended): a new history row opened on an offline-to-online
transition or on a same-medium location change first closes the previously
open row, so for a device whose snapshot entries always report the same
medium (all wireless or all wired), the number of open ConnectionHistory
rows never exceeds 1 over any sequence of poll cycles.  The unamended claim
fails on an online medium switch (see the counterexample): the close is
guarded by the stored location of the new medium, which is empty right
after a medium switch, so a new row opens with the old row still open. -/
theorem c1_theorem (nameOf : String → String) (mac : String) (b : Bool)
    (inputs : List CycleInput)
    (hmed : ∀ i ∈ inputs, ∀ c, i.client = some c → c.isWired = b) :
    openCount (runTrace nameOf (initialDevice mac) [] inputs).2 ≤ 1 :=
  (runTrace_inv b nameOf inputs (initialDevice mac) [] hmed
    ⟨by simp [openCount], fun _ => rfl, fun _ => rfl⟩).1

/-- Witness for C1's theorem: a purely wireless three-cycle trace (connect
to ap1, roam to ap2, go offline) keeps at most one open row. -/
theorem c1_witness :
    openCount (runTrace (fun s => s) (initialDevice "aa:bb:cc:dd:ee:01") []
      [⟨DTime.utc 100, some ⟨some "ap1", some "10.0.0.2", some (-50), false, none, none⟩,
          Except.ok false⟩,
       ⟨DTime.utc 200, some ⟨some "ap2", some "10.0.0.2", some (-60), false, none, none⟩,
          Except.ok false⟩,
       ⟨DTime.utc 300, none, Except.ok false⟩]).2 ≤ 1 :=
  c1_theorem (fun s => s) "aa:bb:cc:dd:ee:01" false _ (by
    intro i hi c hc
    simp only [List.mem_cons, List.not_mem_nil, or_false] at hi
    rcases hi with rfl | rfl | rfl
    · simp only [Option.some.injEq] at hc
      rw [← hc]
    · simp only [Option.some.injEq] at hc
      rw [← hc]
    · exact absurd hc (by simp))

/-- C1 counterexample: a device that connects wireless on ap1 and then
reports wired on sw1 in the next cycle ends with two open history rows —
the medium switch opens a new row without closing the previous one, so the
open-row count exceeds 1, contrary to the claim. -/
theorem c1_counterexample :
    ¬ openCount (runTrace (fun s => s) (initialDevice "aa:bb:cc:dd:ee:01") []
      [⟨DTime.utc 100, some ⟨some "ap1", some "10.0.0.2", some (-50), false, none, none⟩,
          Except.ok false⟩,
       ⟨DTime.utc 200, some ⟨none, some "10.0.0.2", none, true, some "sw1", some 3⟩,
          Except.ok false⟩]).2 ≤ 1 := by
  decide

/-! ## C9: cycle abort on snapshot failure -/

/-- C9: when the controller connection fails or the client fetch raises,
refresh_tracked_devices returns before any commit, so the persisted store —
every tracked device's fields and history rows — is exactly what it was
before the cycle. -/
theorem c9_theorem (now : DTime) (nameOf : String → String) (store : WifiStore)
    (connectOk : Bool) (fetch : Except Unit (String → Option WClient))
    (blockOf : String → Except Unit Bool)
    (hfail : connectOk = false ∨ ∃ e, fetch = Except.error e) :
    refreshTrackedDevices now nameOf store connectOk fetch blockOf = store := by
  unfold refreshTrackedDevices
  by_cases hemp : store.devices.isEmpty = true
  · rw [if_pos hemp]
  · rw [if_neg hemp]
    rcases hfail with hc | ⟨e, he⟩
    · subst hc
      rfl
    · subst he
      cases connectOk <;> rfl

/-- Witness for C9: a store with one tracked device is untouched by a cycle
whose client fetch raises. -/
theorem c9_witness :
    refreshTrackedDevices (DTime.utc 0) (fun s => s)
      ⟨[(initialDevice "aa:bb:cc:dd:ee:01", [])]⟩ true (Except.error ())
      (fun _ => Except.ok false) = ⟨[(initialDevice "aa:bb:cc:dd:ee:01", [])]⟩ :=
  c9_theorem (DTime.utc 0) (fun s => s) ⟨[(initialDevice "aa:bb:cc:dd:ee:01", [])]⟩
    true (Except.error ()) (fun _ => Except.ok false) (Or.inr ⟨(), rfl⟩)

/-! ## C8: block-status failure tolerated -/

theorem blockCheck_error (u : Unit) (d : TrackedDevice)
    (hist : List ConnectionHistory) (n : List Notif) :
    blockCheck (Except.error u) d hist n = ⟨d, hist, n⟩ := rfl

theorem processOnlineWired_isBlocked (now : DTime) (nameOf : String → String)
    (c : WClient) (d : TrackedDevice) (hist : List ConnectionHistory) :
    (processOnlineWired now nameOf c d hist).1.isBlocked = d.isBlocked := by
  simp only [processOnlineWired]
  cases c.swMac with
  | none => rfl
  | some m =>
    dsimp only
    split
    · rfl
    · split <;> rfl

theorem processOnlineWireless_isBlocked (now : DTime) (nameOf : String → String)
    (c : WClient) (d : TrackedDevice) (hist : List ConnectionHistory) :
    (processOnlineWireless now nameOf c d hist).1.isBlocked = d.isBlocked := by
  simp only [processOnlineWireless]
  cases c.apMac with
  | none => rfl
  | some a =>
    dsimp only
    split
    · rfl
    · split <;> rfl

theorem processOnlineWired_notifs (now : DTime) (nameOf : String → String)
    (c : WClient) (d : TrackedDevice) (hist : List ConnectionHistory) :
    (processOnlineWired now nameOf c d hist).2.2 = [] ∨
    (processOnlineWired now nameOf c d hist).2.2 = [Notif.roamed] := by
  simp only [processOnlineWired]
  cases c.swMac with
  | none => left; rfl
  | some m =>
    dsimp only
    split
    · left; rfl
    · split
      · right; rfl
      · left; rfl

theorem processOnlineWireless_notifs (now : DTime) (nameOf : String → String)
    (c : WClient) (d : TrackedDevice) (hist : List ConnectionHistory) :
    (processOnlineWireless now nameOf c d hist).2.2 = [] ∨
    (processOnlineWireless now nameOf c d hist).2.2 = [Notif.roamed] := by
  simp only [processOnlineWireless]
  cases c.apMac with
  | none => left; rfl
  | some a =>
    dsimp only
    split
    · left; rfl
    · split
      · right; rfl
      · left; rfl

theorem processOnline_isBlocked (now : DTime) (nameOf : String → String)
    (c : WClient) (d : TrackedDevice) (hist : List ConnectionHistory) :
    (processOnline now nameOf c d hist).1.isBlocked = d.isBlocked := by
  simp only [processOnline]
  split <;> split <;>
    first
      | exact processOnlineWired_isBlocked now nameOf c d hist
      | exact processOnlineWireless_isBlocked now nameOf c d hist

theorem processOnline_notifs (now : DTime) (nameOf : String → String)
    (c : WClient) (d : TrackedDevice) (hist : List ConnectionHistory) :
    ∀ x ∈ (processOnline now nameOf c d hist).2.2,
      x = Notif.roamed ∨ x = Notif.connected := by
  intro x hx
  simp only [processOnline] at hx
  split at hx <;> split at hx <;>
  first
    | (rcases processOnlineWired_notifs now nameOf c d hist with h | h <;>
        rw [h] at hx <;> simp at hx <;> tauto)
    | (rcases processOnlineWireless_notifs now nameOf c d hist with h | h <;>
        rw [h] at hx <;> simp at hx <;> tauto)

/-- C8: a failing block-status check is caught and skipped: the device's
stored blocked flag is unchanged and no blocked/unblocked notification is
emitted for it; and the batch loop processes every device independently,
each against its own inputs, so one device's failure never affects the
rest. -/
theorem c8_theorem (now : DTime) (nameOf : String → String) (client : Option WClient)
    (d : TrackedDevice) (hist : List ConnectionHistory) :
    ((processDevice now nameOf client (Except.error ()) d hist).device.isBlocked =
        d.isBlocked ∧
      Notif.blocked ∉ (processDevice now nameOf client (Except.error ()) d hist).notifs ∧
      Notif.unblocked ∉ (processDevice now nameOf client (Except.error ()) d hist).notifs) ∧
    ∀ (items : List DeviceCycleData) (j : Nat) (it : DeviceCycleData),
      items[j]? = some it →
      (processDeviceBatch now nameOf items)[j]? =
        some (processDevice now nameOf it.client it.blockRes it.device it.hist) := by
  constructor
  · cases client with
    | some c =>
      simp only [processDevice, blockCheck_error]
      refine ⟨processOnline_isBlocked now nameOf c d hist, ?_, ?_⟩
      · intro hx
        rcases processOnline_notifs now nameOf c d hist Notif.blocked hx with h | h <;>
          exact absurd h (by decide)
      · intro hx
        rcases processOnline_notifs now nameOf c d hist Notif.unblocked hx with h | h <;>
          exact absurd h (by decide)
    | none =>
      simp only [processDevice]
      split
      · simp only [blockCheck_error]
        exact ⟨by trivial, by decide, by decide⟩
      · simp only [blockCheck_error]
        exact ⟨by trivial, by decide, by decide⟩
  · intro items j it hj
    simp only [processDeviceBatch, List.getElem?_map, hj, Option.map_some']

/-- Witness for C8: a device whose block check raises keeps its blocked
flag, and a one-element batch produces exactly its processed result. -/
theorem c8_witness :
    (processDevice (DTime.utc 10) (fun s => s)
        (some ⟨some "ap1", none, some (-42), false, none, none⟩) (Except.error ())
        (initialDevice "aa:bb:cc:dd:ee:01") []).device.isBlocked =
      (initialDevice "aa:bb:cc:dd:ee:01").isBlocked ∧
    (processDeviceBatch (DTime.utc 10) (fun s => s)
        [⟨initialDevice "aa:bb:cc:dd:ee:01", [], none, Except.error ()⟩])[0]? =
      some (processDevice (DTime.utc 10) (fun s => s) none (Except.error ())
        (initialDevice "aa:bb:cc:dd:ee:01") []) :=
  ⟨(c8_theorem (DTime.utc 10) (fun s => s)
      (some ⟨some "ap1", none, some (-42), false, none, none⟩)
      (initialDevice "aa:bb:cc:dd:ee:01") []).1.1,
   (c8_theorem (DTime.utc 10) (fun s => s) none
      (initialDevice "aa:bb:cc:dd:ee:01") []).2
      [⟨initialDevice "aa:bb:cc:dd:ee:01", [], none, Except.error ()⟩] 0
      ⟨initialDevice "aa:bb:cc:dd:ee:01", [], none, Except.error ()⟩ rfl⟩

/-! ## C3: ingestion idempotence -/

theorem parseUnifiEvent_uid_now (now now2 : DTime) (raw : RawEvent) :
    (parseUnifiEvent now raw).unifiEventId = (parseUnifiEvent now2 raw).unifiEventId := by
  unfold parseUnifiEvent
  split <;> rfl

theorem mem_storeIds_ingestOne (now : DTime) (st : IngestState) (r : RawEvent)
    (x : String) (hx : x ∈ storeIds st) : x ∈ storeIds (ingestOne now st r) := by
  simp only [ingestOne]
  split
  · exact hx
  · simp only [storeIds, List.map_append, List.mem_append]
    left
    exact hx

theorem self_mem_storeIds_ingestOne (now : DTime) (st : IngestState) (r : RawEvent) :
    (parseUnifiEvent now r).unifiEventId ∈ storeIds (ingestOne now st r) := by
  simp only [ingestOne]
  split
  · rename_i hdup
    simp only [List.any_eq_true, beq_iff_eq] at hdup
    obtain ⟨s, hs, he⟩ := hdup
    simp only [storeIds, List.mem_map]
    exact ⟨s, hs, he⟩
  · simp only [storeIds, List.map_append, List.mem_append]
    right
    simp

theorem mem_storeIds_ingestBatch (now : DTime) (x : String) :
    ∀ (batch : List RawEvent) (st : IngestState),
      x ∈ storeIds st → x ∈ storeIds (ingestBatch now st batch) := by
  intro batch
  induction batch with
  | nil => intro st hx; exact hx
  | cons a t ih =>
    intro st hx
    exact ih (ingestOne now st a) (mem_storeIds_ingestOne now st a x hx)

theorem batch_mem_storeIds_ingestBatch (now : DTime) :
    ∀ (batch : List RawEvent) (st : IngestState), ∀ r ∈ batch,
      (parseUnifiEvent now r).unifiEventId ∈ storeIds (ingestBatch now st batch) := by
  intro batch
  induction batch with
  | nil => intro st r hr; exact absurd hr (List.not_mem_nil r)
  | cons a t ih =>
    intro st r hr
    rcases List.mem_cons.mp hr with rfl | hrt
    · exact mem_storeIds_ingestBatch now _ t (ingestOne now st r)
        (self_mem_storeIds_ingestOne now st r)
    · exact ih (ingestOne now st a) r hrt

theorem ingestOne_of_mem (now : DTime) (st : IngestState) (r : RawEvent)
    (h : (parseUnifiEvent now r).unifiEventId ∈ storeIds st) :
    ingestOne now st r = st := by
  simp only [ingestOne]
  split
  · rfl
  · rename_i hnot
    exfalso
    apply hnot
    simp only [List.any_eq_true, beq_iff_eq]
    obtain ⟨s, hs, he⟩ := List.mem_map.mp h
    exact ⟨s, hs, he⟩

theorem ingestBatch_of_all_mem (now : DTime) :
    ∀ (batch : List RawEvent) (st : IngestState),
      (∀ r ∈ batch, (parseUnifiEvent now r).unifiEventId ∈ storeIds st) →
      ingestBatch now st batch = st := by
  intro batch
  induction batch with
  | nil => intro st _; rfl
  | cons a t ih =>
    intro st h
    have ha : ingestOne now st a = st :=
      ingestOne_of_mem now st a (h a (List.mem_cons_self a t))
    show ingestBatch now (ingestOne now st a) t = st
    rw [ha]
    exact ih st (fun r hr => h r (List.mem_cons_of_mem a hr))

/-- C3: re-ingesting the same raw batch against the store the first run
produced inserts nothing (the whole state, events and rules, is unchanged),
and a later record of one batch whose canonical upstream id equals an
earlier record's id is skipped as a duplicate, leaving the state unchanged. -/
theorem c3_theorem (now now2 : DTime) (st : IngestState) (batch : List RawEvent) :
    ingestBatch now2 (ingestBatch now st batch) batch = ingestBatch now st batch ∧
    ∀ r ∈ batch, ∀ r2 : RawEvent,
      (parseUnifiEvent now r2).unifiEventId = (parseUnifiEvent now r).unifiEventId →
      ingestBatch now st (batch ++ [r2]) = ingestBatch now st batch := by
  constructor
  · apply ingestBatch_of_all_mem
    intro r hr
    rw [parseUnifiEvent_uid_now now2 now]
    exact batch_mem_storeIds_ingestBatch now batch st r hr
  · intro r hr r2 heq
    have h1 : ingestBatch now st (batch ++ [r2]) =
        ingestOne now (ingestBatch now st batch) r2 := by
      simp [ingestBatch, List.foldl_append]
    rw [h1]
    apply ingestOne_of_mem
    rw [heq]
    exact batch_mem_storeIds_ingestBatch now batch st r hr

/-- Witness for C3: a legacy-shaped record with only a timestamp (id derived
from it) delivered twice across runs and twice within one batch produces no
second row. -/
theorem c3_witness :
    ingestBatch (DTime.utc 2)
        (ingestBatch (DTime.utc 1) ⟨[], []⟩
          [{ emptyRaw with timestamp := some 1700000000000, srcIp := some "1.2.3.4" }])
        [{ emptyRaw with timestamp := some 1700000000000, srcIp := some "1.2.3.4" }] =
      ingestBatch (DTime.utc 1) ⟨[], []⟩
        [{ emptyRaw with timestamp := some 1700000000000, srcIp := some "1.2.3.4" }] ∧
    ingestBatch (DTime.utc 1) ⟨[], []⟩
        ([{ emptyRaw with timestamp := some 1700000000000, srcIp := some "1.2.3.4" }] ++
          [{ emptyRaw with timestamp := some 1700000000000, srcIp := some "1.2.3.4" }]) =
      ingestBatch (DTime.utc 1) ⟨[], []⟩
        [{ emptyRaw with timestamp := some 1700000000000, srcIp := some "1.2.3.4" }] :=
  ⟨(c3_theorem (DTime.utc 1) (DTime.utc 2) ⟨[], []⟩
      [{ emptyRaw with timestamp := some 1700000000000, srcIp := some "1.2.3.4" }]).1,
   (c3_theorem (DTime.utc 1) (DTime.utc 2) ⟨[], []⟩
      [{ emptyRaw with timestamp := some 1700000000000, srcIp := some "1.2.3.4" }]).2
     { emptyRaw with timestamp := some 1700000000000, srcIp := some "1.2.3.4" }
     (List.mem_singleton.mpr rfl)
     { emptyRaw with timestamp := some 1700000000000, srcIp := some "1.2.3.4" } rfl⟩

/-! ## C5: ingestion-time ignore matching -/

/-- C5 (amended): check_ignore_rules returns true exactly when some enabled
rule passes the IP-direction test and the severity test applied to the
event's effective severity (a null or zero stored severity is read as 3,
low); when a first fully matching rule exists, its id is returned and it —
and only it — has its ignored-count incremented by 1 and its last-matched
set to now; with no fully matching rule the decision is false and the rule
list is untouched (a rule matching only on IP does not stop the scan). -/
theorem c5_theorem (now : DTime) (e : CanonEvent) (rules : List ThreatIgnoreRule) :
    ((checkIgnoreRules now e rules).1 = rules.any (ruleHit e)) ∧
    (rules.find? (ruleHit e) = none →
      checkIgnoreRules now e rules = (false, none, rules)) ∧
    ∀ (r : ThreatIgnoreRule) (l1 l2 : List ThreatIgnoreRule),
      rules = l1 ++ r :: l2 → (∀ x ∈ l1, ruleHit e x = false) → ruleHit e r = true →
      checkIgnoreRules now e rules = (true, some r.id, l1 ++ bumpRule now r :: l2) := by
  refine ⟨?_, ?_, ?_⟩
  · induction rules with
    | nil => rfl
    | cons r rs ih =>
      unfold checkIgnoreRules
      by_cases h : ruleHit e r = true
      · rw [if_pos h]
        simp [List.any_cons, h]
      · rw [if_neg h]
        simp only [List.any_cons]
        rw [Bool.eq_false_iff.mpr h]
        simpa using ih
  · induction rules with
    | nil => intro _; rfl
    | cons r rs ih =>
      intro hfind
      have hr : ¬ruleHit e r = true := by
        intro hx
        rw [List.find?_cons_of_pos rs hx] at hfind
        exact Option.some_ne_none r hfind
      rw [List.find?_cons_of_neg rs hr] at hfind
      unfold checkIgnoreRules
      rw [if_neg hr, ih hfind]
  · intro r l1
    induction l1 generalizing rules with
    | nil =>
      intro l2 hrules _ hr
      subst hrules
      simp only [List.nil_append, checkIgnoreRules]
      rw [if_pos hr]
    | cons x l1t ih =>
      intro l2 hrules hnone hr
      subst hrules
      have hx : ¬ruleHit e x = true := by
        rw [hnone x (List.mem_cons_self x _)]
        exact Bool.false_ne_true
      simp only [List.cons_append, checkIgnoreRules]
      rw [if_neg hx]
      simp only [List.append_eq]
      rw [ih (l1t ++ r :: l2) l2 rfl (fun y hy => hnone y (List.mem_cons_of_mem x hy)) hr]

/-- Witness for C5's theorem: the spec scenario — rule on ip 10.0.0.5,
match-source, ignore-medium only; a severity-2 event from 10.0.0.5 is
ignored by that rule, whose counter is incremented and last-matched set. -/
theorem c5_witness :
    checkIgnoreRules (DTime.utc 50)
        { emptyCanon with srcIp := some "10.0.0.5", severity := some 2 }
        [{ baseRule with ignoreMedium := true, matchSource := true, enabled := true }] =
      (true, some 1,
        [bumpRule (DTime.utc 50)
          { baseRule with ignoreMedium := true, matchSource := true, enabled := true }]) :=
  (c5_theorem (DTime.utc 50)
    { emptyCanon with srcIp := some "10.0.0.5", severity := some 2 }
    [{ baseRule with ignoreMedium := true, matchSource := true, enabled := true }]).2.2
    { baseRule with ignoreMedium := true, matchSource := true, enabled := true } [] []
    rfl (by simp) (by decide)

/-- C5 counterexample: an event with a null stored severity (possible for a
legacy record without a severity field) and src_ip 10.0.0.5 is ignored by
an enabled ignore-low rule on that IP, although no rule satisfies the
claim's severity test on the event's stored severity (1, 2 or 3) — the code
reads a null severity as 3 before testing, so the claim's "if and only if"
fails on such events. -/
theorem c5_counterexample :
    (checkIgnoreRules (DTime.utc 60)
        { emptyCanon with srcIp := some "10.0.0.5", severity := none }
        [{ baseRule with ignoreLow := true, matchSource := true, enabled := true }]).1 =
      true ∧
    ([{ baseRule with ignoreLow := true, matchSource := true, enabled := true }].any
      fun r =>
        ipRuleMatch r (some "10.0.0.5") none && specSevTest r none) = false := by
  decide

/-! ## C2: recompute closure on rule edit -/

theorem remove_not_attributed (rid : Int) (evs : List StoredEvent) :
    ∀ s ∈ removeIgnoreRuleFromEvents rid evs, (s.ignoredByRuleId == some rid) = false := by
  intro s hs
  simp only [removeIgnoreRuleFromEvents, List.mem_map] at hs
  obtain ⟨x, hx, rfl⟩ := hs
  by_cases h : (x.ignoredByRuleId == some rid) = true
  · rw [if_pos h]
    rfl
  · rw [if_neg h]
    exact Bool.eq_false_iff.mpr h

theorem apply_attrib (now : DTime) (rr : ThreatIgnoreRule) (l : List StoredEvent)
    (hl : ∀ s ∈ l, (s.ignoredByRuleId == some rr.id) = false) :
    ((applyIgnoreRuleToExistingEvents now rr l).2.map
        fun s => s.ignoredByRuleId == some rr.id) =
      l.map fun s => rr.enabled && retroMatch rr s && !s.ignored := by
  simp only [applyIgnoreRuleToExistingEvents]
  cases hen : rr.enabled with
  | false =>
    rw [if_pos (by decide : (!false) = true)]
    dsimp only
    apply List.map_congr_left
    intro s hs
    rw [hl s hs]
    simp
  | true =>
    rw [if_neg (by decide : ¬(!true) = true)]
    by_cases hdir : (!rr.matchSource && !rr.matchDestination) = true
    · rw [if_pos hdir]
      obtain ⟨hms, hmd⟩ := Bool.and_eq_true_iff.mp hdir
      have hms2 : rr.matchSource = false := (Bool.not_eq_true' _) ▸ hms
      have hmd2 : rr.matchDestination = false := (Bool.not_eq_true' _) ▸ hmd
      dsimp only
      apply List.map_congr_left
      intro s hs
      rw [hl s hs]
      simp [retroMatch, hms2, hmd2]
    · rw [if_neg hdir]
      by_cases hsev : sevValues rr = []
      · rw [if_pos hsev]
        dsimp only
        apply List.map_congr_left
        intro s hs
        rw [hl s hs]
        cases hsv : s.ev.severity <;> simp [retroMatch, hsev, hsv]
      · rw [if_neg hsev]
        split <;>
        · dsimp only
          rw [List.map_map]
          apply List.map_congr_left
          intro s hs
          by_cases hm : (retroMatch rr s && !s.ignored) = true
          · simp only [Function.comp_apply, if_pos hm]
            simp [hm]
          · simp only [Function.comp_apply, if_neg hm]
            rw [hl s hs, Bool.true_and, Bool.eq_false_iff.mpr hm]

/-- C2: after update_ignore_rule runs on rule R with its new criteria —
unmark everything attributed to R, then re-apply — the per-row attribution
flags (ignoring-rule == R) equal the spec's from-scratch recomputation of
R's new definition over all persisted events: no stale attribution
survives, and every event R's new criteria select (among those not ignored
by another rule) is attributed to R. -/
theorem c2_theorem (now : DTime) (r : ThreatIgnoreRule) (evs : List StoredEvent) :
    ((updateIgnoreRule now r evs).2.map fun s => s.ignoredByRuleId == some r.id) =
      specRecomputedFromScratch r evs :=
  apply_attrib now { r with eventsIgnored := 0 }
    (removeIgnoreRuleFromEvents r.id evs)
    (remove_not_attributed r.id evs)

/-! ## C6: action canonicalization -/

/-- C6 (amended): the scheduler's canonicalization maps the action text of a
v2-shaped record with `allowed` becoming `alert` and `blocked` becoming
`block`, defaulting an absent action to `alert`, and passing every other
value — including `dropped` and `rejected` — through unchanged; a
legacy-shaped record's action passes through entirely unchanged, an absent
one staying null rather than defaulting to `alert`. -/
theorem c6_theorem (now : DTime) (event : RawEvent) :
    (event.ips.isSome = true →
      ((event.action = none → (parseUnifiEvent now event).action = some "alert") ∧
       (event.action = some "allowed" → (parseUnifiEvent now event).action = some "alert") ∧
       (event.action = some "blocked" → (parseUnifiEvent now event).action = some "block") ∧
       ∀ s : String, event.action = some s → s ≠ "allowed" → s ≠ "blocked" →
         (parseUnifiEvent now event).action = some s)) ∧
    (event.ips = none → (parseUnifiEvent now event).action = event.innerAlertAction) := by
  constructor
  · intro hv2
    have hpe : parseUnifiEvent now event = parseV2TrafficFlow now event := by
      unfold parseUnifiEvent
      rw [if_pos hv2]
    have hval : (parseV2TrafficFlow now event).action =
        some (if (event.action.getD "alert") = "blocked" then "block"
          else if (event.action.getD "alert") = "allowed" then "alert"
          else (event.action.getD "alert")) := rfl
    refine ⟨?_, ?_, ?_, ?_⟩
    · intro h
      rw [hpe, hval, h]
      decide
    · intro h
      rw [hpe, hval, h]
      decide
    · intro h
      rw [hpe, hval, h]
      decide
    · intro s h hs1 hs2
      rw [hpe, hval, h]
      simp only [Option.getD_some]
      rw [if_neg hs2, if_neg hs1]
  · intro hleg
    have hpe : parseUnifiEvent now event = parseLegacyIpsEvent now event := by
      unfold parseUnifiEvent
      rw [if_neg (by simp [hleg])]
    rw [hpe]
    rfl

/-- Witness for C6's theorem: a v2 record with action `allowed` maps to
`alert`, one with `dropped` passes through, and a legacy record without an
action keeps a null action. -/
theorem c6_witness :
    (parseUnifiEvent (DTime.utc 0)
        { emptyRaw with
          ips := some ⟨none, none, none, none, none⟩
          action := some "allowed" }).action = some "alert" ∧
    (parseUnifiEvent (DTime.utc 0)
        { emptyRaw with
          ips := some ⟨none, none, none, none, none⟩
          action := some "dropped" }).action = some "dropped" ∧
    (parseUnifiEvent (DTime.utc 0) emptyRaw).action = emptyRaw.innerAlertAction :=
  ⟨((c6_theorem (DTime.utc 0)
      { emptyRaw with
        ips := some ⟨none, none, none, none, none⟩
        action := some "allowed" }).1 rfl).2.1 rfl,
   ((c6_theorem (DTime.utc 0)
      { emptyRaw with
        ips := some ⟨none, none, none, none, none⟩
        action := some "dropped" }).1 rfl).2.2.2 "dropped" rfl
     (by decide) (by decide),
   (c6_theorem (DTime.utc 0) emptyRaw).2 rfl⟩

/-- C6 counterexample: a v2-shaped record with action `dropped` keeps
`dropped` on the canonical record — the scheduler's v2 parse maps only
`blocked` to `block`, so the claimed `dropped`/`rejected` to `block`
mapping does not hold of the canonicalization functions. -/
theorem c6_counterexample :
    (parseUnifiEvent (DTime.utc 0)
        { emptyRaw with
          ips := some ⟨none, none, none, none, none⟩
          action := some "dropped" }).action = some "dropped" ∧
    ¬ (parseUnifiEvent (DTime.utc 0)
        { emptyRaw with
          ips := some ⟨none, none, none, none, none⟩
          action := some "dropped" }).action = some "block" := by
  decide

/-! ## C7: risk-to-severity mapping -/

/-- C7: canonicalizing a v2-shaped record maps its textual risk label to
severity 1 for `high`, 2 for `medium`, 3 for `low`, and 3 for any absent or
unrecognized value. -/
theorem c7_theorem (now : DTime) (event : RawEvent) (hv2 : event.ips.isSome = true) :
    (event.risk = some "high" → (parseUnifiEvent now event).severity = some 1) ∧
    (event.risk = some "medium" → (parseUnifiEvent now event).severity = some 2) ∧
    (event.risk = some "low" → (parseUnifiEvent now event).severity = some 3) ∧
    (event.risk = none → (parseUnifiEvent now event).severity = some 3) ∧
    ∀ s : String, event.risk = some s → s ≠ "high" → s ≠ "medium" → s ≠ "low" →
      (parseUnifiEvent now event).severity = some 3 := by
  have hpe : parseUnifiEvent now event = parseV2TrafficFlow now event := by
    unfold parseUnifiEvent
    rw [if_pos hv2]
  have hval : (parseV2TrafficFlow now event).severity =
      some (if (event.risk.getD "low") = "high" then 1
        else if (event.risk.getD "low") = "medium" then 2
        else if (event.risk.getD "low") = "low" then 3 else 3) := rfl
  refine ⟨?_, ?_, ?_, ?_, ?_⟩
  · intro h
    rw [hpe, hval, h]
    decide
  · intro h
    rw [hpe, hval, h]
    decide
  · intro h
    rw [hpe, hval, h]
    decide
  · intro h
    rw [hpe, hval, h]
    decide
  · intro s h h1 h2 h3
    rw [hpe, hval, h]
    simp only [Option.getD_some]
    rw [if_neg h1, if_neg h2, if_neg h3]

/-- Witness for C7's theorem: risk `high` gives severity 1 and an
unrecognized risk `critical` gives severity 3. -/
theorem c7_witness :
    (parseUnifiEvent (DTime.utc 0)
        { emptyRaw with
          ips := some ⟨none, none, none, none, none⟩
          risk := some "high" }).severity = some 1 ∧
    (parseUnifiEvent (DTime.utc 0)
        { emptyRaw with
          ips := some ⟨none, none, none, none, none⟩
          risk := some "critical" }).severity = some 3 :=
  ⟨(c7_theorem (DTime.utc 0)
      { emptyRaw with
        ips := some ⟨none, none, none, none, none⟩
        risk := some "high" } rfl).1 rfl,
   (c7_theorem (DTime.utc 0)
      { emptyRaw with
        ips := some ⟨none, none, none, none, none⟩
        risk := some "critical" } rfl).2.2.2.2 "critical" rfl
     (by decide) (by decide) (by decide)⟩

/-! ## C10: null-severity divergence between ingestion-time and
retroactive matching -/

/-- C10: a legacy record without a severity field canonicalizes to a null
stored severity; the ingestion-time check reads a null severity as 3 (low)
and ignores such an event under an enabled, IP-matching ignore-low rule;
but retroactive application selects only events whose stored severity lies
in the rule's enabled set {1,2,3}, so a null-severity event is never
touched by it. -/
theorem c10_theorem :
    (∀ (now : DTime) (raw : RawEvent), raw.ips = none → raw.innerAlertSeverity = none →
      (parseUnifiEvent now raw).severity = none) ∧
    (∀ (now : DTime) (e : CanonEvent) (r : ThreatIgnoreRule),
      e.severity = none → r.enabled = true → r.ignoreLow = true →
      ipRuleMatch r e.srcIp e.destIp = true →
      (checkIgnoreRules now e [r]).1 = true) ∧
    ∀ (now : DTime) (r : ThreatIgnoreRule) (evs : List StoredEvent) (j : Nat)
      (s : StoredEvent), evs[j]? = some s → s.ev.severity = none →
      (applyIgnoreRuleToExistingEvents now r evs).2[j]? = some s := by
  refine ⟨?_, ?_, ?_⟩
  · intro now raw hips hsev
    have hpe : parseUnifiEvent now raw = parseLegacyIpsEvent now raw := by
      unfold parseUnifiEvent
      rw [if_neg (by simp [hips])]
    rw [hpe]
    exact hsev
  · intro now e r hsev hen hlow hip
    have hhit : ruleHit e r = true := by
      simp [ruleHit, hen, hip, sevRuleMatch, effSeverity, hsev, hlow]
    simp [checkIgnoreRules, hhit]
  · intro now r evs j s hj hsev
    simp only [applyIgnoreRuleToExistingEvents]
    split
    · exact hj
    · split
      · exact hj
      · split
        · exact hj
        · have hrm : (retroMatch r s && !s.ignored) = false := by
            simp [retroMatch, hsev]
          split <;>
          · dsimp only
            simp only [List.getElem?_map, hj, Option.map_some']
            rw [if_neg (by simp [hrm])]

/-- Witness for C10's theorem: a legacy record carrying only a source IP
canonicalizes to a null severity; the ingest-time check ignores the
corresponding event under an ignore-low rule on 10.0.0.5; retroactively
applying the same rule leaves the stored null-severity event untouched. -/
theorem c10_witness :
    (parseUnifiEvent (DTime.utc 0) { emptyRaw with srcIp := some "10.0.0.5" }).severity =
      none ∧
    (checkIgnoreRules (DTime.utc 0) { emptyCanon with srcIp := some "10.0.0.5" }
        [{ baseRule with enabled := true, matchSource := true, ignoreLow := true }]).1 =
      true ∧
    (applyIgnoreRuleToExistingEvents (DTime.utc 0)
        { baseRule with enabled := true, matchSource := true, ignoreLow := true }
        [⟨{ emptyCanon with srcIp := some "10.0.0.5" }, false, none⟩]).2[0]? =
      some ⟨{ emptyCanon with srcIp := some "10.0.0.5" }, false, none⟩ :=
  ⟨c10_theorem.1 (DTime.utc 0) { emptyRaw with srcIp := some "10.0.0.5" } rfl rfl,
   c10_theorem.2.1 (DTime.utc 0) { emptyCanon with srcIp := some "10.0.0.5" }
     { baseRule with enabled := true, matchSource := true, ignoreLow := true }
     rfl rfl rfl (by decide),
   c10_theorem.2.2 (DTime.utc 0)
     { baseRule with enabled := true, matchSource := true, ignoreLow := true }
     [⟨{ emptyCanon with srcIp := some "10.0.0.5" }, false, none⟩] 0
     ⟨{ emptyCanon with srcIp := some "10.0.0.5" }, false, none⟩ rfl rfl⟩
